import Mathlib

set_option autoImplicit false

/-!
Verification development for the ops dashboard's remote onboarding,
verification, deployment and log-streaming engine.

Each definition is a shallow embedding of a function or interface of the
repository (frontend TypeScript under `src/frontend`); functions of the
backend engine that are not part of the repository snapshot are modelled
from the specification and marked as such in their doc comments.
-/

namespace Ops

/-! ## Log viewer (src/frontend/src/components/LogViewer.vue)

A terminal line is modelled as a list of characters; the buffered history
`logBuffer` is a list of lines. -/

/-- A single log line, as a list of characters. -/
abbrev Line : Type := List Char

/-- JavaScript `chunk.split('\n')`: splits a character sequence at every
newline, keeping empty segments; the result always has at least one
element (splitting the empty string yields one empty segment). -/
def splitNl : List Char → List Line
  | [] => [[]]
  | c :: cs =>
    if c = '\x0a' then [] :: splitNl cs
    else
      match splitNl cs with
      | [] => [[c]]
      | l :: ls => (c :: l) :: ls

/-- The `ws.onmessage` handler's buffer maintenance in `LogViewer.vue`
(`connectWebSocket`): split the chunk into lines, and if the buffer plus the
new lines would exceed 10000 lines, `splice` off that many lines from the
front before pushing the new lines. -/
def onMessageBuffer (logBuffer : List Line) (chunk : List Char) : List Line :=
  let lines := splitNl chunk
  let buffer :=
    if logBuffer.length + lines.length > 10000 then
      logBuffer.drop (logBuffer.length + lines.length - 10000)
    else logBuffer
  buffer ++ lines

/-- One log line case-insensitively contains the filter keyword:
`line.toLowerCase().includes(filter.toLowerCase())`, with the lower-casing
function taken as a parameter. -/
def lineMatches (lower : Char → Char) (filt line : Line) : Bool :=
  decide (List.map lower filt <:+: List.map lower line)

/-- `refreshTerminal` in `LogViewer.vue`: re-renders the terminal from the
buffered history alone; with an empty filter every buffered line is written,
otherwise exactly the lines that case-insensitively contain the keyword. -/
def refreshTerminalLines (lower : Char → Char) (filt : Line) (logBuffer : List Line) : List Line :=
  if filt.isEmpty then logBuffer
  else logBuffer.filter (fun line => lineMatches lower filt line)

/-! ## Middleware verification (spec §4.2; frontend interface
`MiddlewareVerifyResult` in src/frontend/src/router/index.ts and
`handleVerify` in src/frontend/src/views/Login.vue) -/

/-- The supported middleware types, resolved once at probe start
(spec §4.2 input, §9 tagged variant). -/
inductive MwType : Type
  | mysql
  | redis
  | sentinel
deriving DecidableEq

/-- Modelled from the spec: the Probe Engine's resolution of the declared
middleware type string; anything outside mysql/redis/sentinel is
unsupported (spec §4.2 edge cases). -/
def parseMwType (s : String) : Option MwType :=
  if s = "mysql" then some MwType.mysql
  else if s = "redis" then some MwType.redis
  else if s = "sentinel" then some MwType.sentinel
  else none

/-- A verification request (`MiddlewareVerify` in router/index.ts;
spec §6). -/
structure MiddlewareVerify : Type where
  resource_id : Nat
  type_s : String
  port : Nat
  username : Option String
  password_plain : Option String
  service_name : Option String

/-- The outcomes the remote host would give to each independent probe,
treated as an oracle: whether SSH answers, whether the port answers from
loopback, whether the service manager reports active, whether the supplied
credentials are accepted, and what the discovery probes find. -/
structure ProbeEnv : Type where
  sshReachable : Bool
  portReachable : Bool
  serviceActive : Bool
  credsAccepted : Bool
  credsRejectedMsg : String
  logPath : Option String
  procServiceName : Option String

/-- `MiddlewareVerifyResult` (router/index.ts, lines 262–274): the
verification report returned to the frontend. -/
structure MiddlewareVerifyResult : Type where
  success : Bool
  ssh_ok : Bool
  port_reachable : Bool
  service_active : Bool
  auth_valid : Bool
  auth_message : Option String
  log_path_found : Bool
  suggested_log_path : Option String
  suggested_service_name : Option String
  message : String
  details : List (String × String)
deriving DecidableEq

/-- The error taxonomy entry surfaced past the engine boundary
(spec §7): a validation error on malformed input. -/
inductive VerifyError : Type
  | validationError (msg : String)
deriving DecidableEq

/-- Modelled from the spec: the Probe Engine (spec §4.2) — the backend
verification endpoint is not part of the repository snapshot, only its
frontend callers are. An unsupported middleware type fails fast with a
validation error before any SSH session; an unreachable SSH target
short-circuits every later check, returning a report with all booleans
false; otherwise each check's outcome is copied from the probe oracle,
empty/missing credentials short-circuit the auth check to not-attempted,
`auth_message` is set only on rejected credentials, service-name discovery
runs only when no name was declared, and `success` is derived as
`ssh_ok && port_reachable && auth_valid`. -/
def verifyMiddleware (req : MiddlewareVerify) (env : ProbeEnv) :
    Except VerifyError MiddlewareVerifyResult :=
  match parseMwType req.type_s with
  | none => Except.error (VerifyError.validationError "unsupported middleware type")
  | some _ty =>
    if env.sshReachable = false then
      Except.ok
        { success := false, ssh_ok := false, port_reachable := false
          service_active := false, auth_valid := false, auth_message := none
          log_path_found := false, suggested_log_path := none
          suggested_service_name := none
          message := "SSH connection failed", details := [] }
    else
      let authAttempted := req.username.isSome && req.password_plain.isSome
      let auth_valid := authAttempted && env.credsAccepted
      Except.ok
        { success := true && env.portReachable && auth_valid
          ssh_ok := true
          port_reachable := env.portReachable
          service_active := env.serviceActive
          auth_valid := auth_valid
          auth_message :=
            if authAttempted && !env.credsAccepted then some env.credsRejectedMsg
            else none
          log_path_found := env.logPath.isSome
          suggested_log_path := env.logPath
          suggested_service_name :=
            match req.service_name with
            | some _ => none
            | none => env.procServiceName
          message :=
            if true && env.portReachable && auth_valid then "verification passed"
            else "verification failed"
          details := [] }

/-- The fallback report constructed by `handleVerify`'s catch branch in
Login.vue (lines 718–727): when the verification request itself fails, the
UI still receives a complete report with every check false. -/
def fallbackVerifyResult : MiddlewareVerifyResult :=
  { success := false, ssh_ok := false, port_reachable := false
    service_active := false, auth_valid := false, auth_message := none
    log_path_found := false, suggested_log_path := none
    suggested_service_name := none
    message := "验证请求失败，请检查网络连接", details := [] }

/-- A report is produced or consumed by the system when it is either an
output of the verification engine or the frontend's fallback report. -/
def producedReport (r : MiddlewareVerifyResult) : Prop :=
  (∃ req env, verifyMiddleware req env = Except.ok r) ∨ r = fallbackVerifyResult

/-! ## Deployment orchestration (spec §4.3; frontend interface
src/frontend/src/api/deploy.ts; src/frontend/src/views/Dashboard.vue) -/

/-- One planned remote step for one target host, with an oracle telling
whether its remote command succeeds. -/
structure StepPlan : Type where
  step : String
  ok : Bool
deriving DecidableEq

/-- The per-target deployment plan: the target's label, resource id, and
its ordered step plans. -/
structure HostPlan : Type where
  server : String
  resource_id : Nat
  steps : List StepPlan
deriving DecidableEq

/-- `DeployStepLog` (deploy.ts, lines 17–22): one recorded step. -/
structure DeployStepLog : Type where
  server : String
  step : String
  status : String
  message : String
deriving DecidableEq

/-- `DeployResult` (deploy.ts, lines 24–30): one per-target result. -/
structure DeployResult : Type where
  server : String
  resource_id : Nat
  success : Bool
  steps : List DeployStepLog
  error : Option String
deriving DecidableEq

/-- `DeployResponse` (deploy.ts, lines 32–35): the batch response. -/
structure DeployResponse : Type where
  success : Bool
  results : List DeployResult
deriving DecidableEq

/-- Modelled from the spec: the orchestrator's per-target step loop
(spec §4.3) — steps run in order, each recording status and message before
the next starts; a failed step is recorded as `failed` and the state
machine stops advancing for that target. -/
def runSteps (server : String) : List StepPlan → List DeployStepLog
  | [] => []
  | sp :: rest =>
    if sp.ok then
      { server := server, step := sp.step, status := "success", message := "ok" }
        :: runSteps server rest
    else
      [{ server := server, step := sp.step, status := "failed"
         message := "step failed" }]

/-- Modelled from the spec: one target's deployment (spec §4.3, §3
DeploymentResult) — success iff every planned step succeeded. -/
def runTarget (p : HostPlan) : DeployResult :=
  { server := p.server
    resource_id := p.resource_id
    success := p.steps.all (fun sp => sp.ok)
    steps := runSteps p.server p.steps
    error :=
      if p.steps.all (fun sp => sp.ok) then none else some "deployment failed" }

/-- Modelled from the spec: the additional shared-failover-daemon restart
step recorded in the result set of a two-host HA batch (spec §4.3). -/
def keepalivedResult (ok : Bool) : DeployResult :=
  { server := "keepalived"
    resource_id := 0
    success := ok
    steps := [{ server := "keepalived", step := "restart_keepalived"
                status := if ok then "success" else "failed"
                message := if ok then "ok" else "restart failed" }]
    error := if ok then none else some "keepalived restart failed" }

/-- Modelled from the spec: the deployment batch (spec §4.3) — every
target runs its own steps independently; when the batch targets exactly
two hosts with the restart-shared-daemon flag set, the daemon restart is
appended to the result set after, and only after, both hosts' primary
deploys succeed. -/
def batchResults (plans : List HostPlan) (restart_keepalived : Bool)
    (keepalivedOk : Bool) : List DeployResult :=
  if restart_keepalived && plans.length == 2
      && (plans.map runTarget).all (fun r => r.success) then
    plans.map runTarget ++ [keepalivedResult keepalivedOk]
  else plans.map runTarget

/-- Modelled from the spec: the batch response (spec §6) — overall success
iff every per-target result succeeded. -/
def runBatch (plans : List HostPlan) (restart_keepalived : Bool)
    (keepalivedOk : Bool) : DeployResponse :=
  { success := (batchResults plans restart_keepalived keepalivedOk).all (fun r => r.success)
    results := batchResults plans restart_keepalived keepalivedOk }

/-- The shared-daemon-restart step is present in a response's result
set. -/
def hasRestartStep (resp : DeployResponse) : Prop :=
  ∃ r ∈ resp.results, ∃ s ∈ r.steps, s.step = "restart_keepalived"

instance (resp : DeployResponse) : Decidable (hasRestartStep resp) :=
  inferInstanceAs (Decidable (∃ r ∈ resp.results, ∃ s ∈ r.steps, s.step = "restart_keepalived"))

/-- One HTTP endpoint of the frontend API client: its method, path, and
declared response type. -/
structure ApiEndpoint : Type 1 where
  method : String
  path : String
  Resp : Type

/-- `deployApi.execute` (deploy.ts, lines 58–60): posts a
`DeployExecuteParams` and is declared to receive a `DeployResponse`. -/
def deployExecuteEndpoint : ApiEndpoint :=
  { method := "post", path := "/deploy/frontend/execute", Resp := DeployResponse }

/-- `deployApi.rollback` (deploy.ts, lines 68–70): posts a
`DeployRollbackParams` and is declared to receive a `DeployResponse`. -/
def deployRollbackEndpoint : ApiEndpoint :=
  { method := "post", path := "/deploy/frontend/rollback", Resp := DeployResponse }

/-- Modelled from the spec: the rollback restore sequence (spec §4.3) —
stop service, replace artifact from backup, restart service, health check,
with per-step success oracles. -/
def rollbackPlan (server : String) (rid : Nat) (o1 o2 o3 o4 : Bool) : HostPlan :=
  { server := server
    resource_id := rid
    steps :=
      [{ step := "stop_service", ok := o1 }
       , { step := "replace_artifact_from_backup", ok := o2 }
       , { step := "restart_service", ok := o3 }
       , { step := "health_check", ok := o4 }] }

/-- Modelled from the spec: a rollback invocation (spec §4.3) — it re-runs
the restore sequence through the same step-recording mechanism as a
forward deployment and returns the same response shape. -/
def runRollback (server : String) (rid : Nat) (o1 o2 o3 o4 : Bool) : DeployResponse :=
  let r := runTarget (rollbackPlan server rid o1 o2 o3 o4)
  { success := r.success, results := [r] }

/-! ## Dashboard deploy view state (src/frontend/src/views/Dashboard.vue) -/

/-- `DeployExecuteParams` (deploy.ts, lines 11–15): the body of a
deployment request. -/
structure DeployExecuteParams : Type where
  file_id : String
  resource_ids : List Nat
  restart_keepalived : Bool
deriving DecidableEq

/-- The part of Dashboard.vue's reactive state that drives server
selection and the keepalived flag. -/
structure DashboardState : Type where
  uploadValid : Bool
  selectedResourceIds : List Nat
  restart_keepalived_flag : Bool
deriving DecidableEq

/-- The initial state of the deploy view: nothing uploaded, nothing
selected, keepalived flag off (Dashboard.vue, lines 486–487). -/
def dashboardInit : DashboardState :=
  { uploadValid := false, selectedResourceIds := [], restart_keepalived_flag := false }

/-- `toggleServer` (Dashboard.vue, lines 542–560): ignore clicks before a
valid upload; deselect a selected server, or select a new one only while
fewer than two are selected (the over-limit branch warns and returns
early, skipping the flag sync); afterwards the keepalived flag is set
exactly when two servers are selected. -/
def toggleServer (id : Nat) (s : DashboardState) : DashboardState :=
  if !s.uploadValid then s
  else if s.selectedResourceIds.contains id then
    let sel := s.selectedResourceIds.erase id
    { s with selectedResourceIds := sel, restart_keepalived_flag := sel.length == 2 }
  else if s.selectedResourceIds.length ≥ 2 then s
  else
    let sel := s.selectedResourceIds ++ [id]
    { s with selectedResourceIds := sel, restart_keepalived_flag := sel.length == 2 }

/-- The keepalived checkbox (Dashboard.vue template, lines 331–334): its
`v-model` writes the flag, and the checkbox is rendered only while
exactly two servers are selected. -/
def setRestartKeepalived (b : Bool) (s : DashboardState) : DashboardState :=
  if s.selectedResourceIds.length == 2 then { s with restart_keepalived_flag := b }
  else s

/-- Upload validation outcome changing (`handleFileChange`/`handleUpload`
in Dashboard.vue): only the upload-valid flag moves. -/
def setUploadValid (b : Bool) (s : DashboardState) : DashboardState :=
  { s with uploadValid := b }

/-- `handleDeploy` (Dashboard.vue, lines 578–582): the submitted request
carries the current selection and the current keepalived flag. -/
def submittedDeploy (fid : String) (s : DashboardState) : DeployExecuteParams :=
  { file_id := fid
    resource_ids := s.selectedResourceIds
    restart_keepalived := s.restart_keepalived_flag }

/-- The states the deploy view can reach from its initial state through
its three state-changing interactions. -/
inductive DashReach : DashboardState → Prop
  | init : DashReach dashboardInit
  | toggle (id : Nat) (s : DashboardState) : DashReach s → DashReach (toggleServer id s)
  | checkbox (b : Bool) (s : DashboardState) :
      DashReach s → DashReach (setRestartKeepalived b s)
  | upload (b : Bool) (s : DashboardState) :
      DashReach s → DashReach (setUploadValid b s)

/-! ## Streaming relay teardown (src/frontend/src/components/LogViewer.vue,
src/frontend/src/views/Middleware/MiddlewareDetail.vue; spec §4.4) -/

/-- The LogViewer component's connection-holding state. -/
structure LogViewerState : Type where
  wsOpen : Bool
  termDisposed : Bool
deriving DecidableEq

/-- The `onUnmounted` hook of LogViewer.vue (lines 155–159): closes the
WebSocket and disposes the terminal. -/
def onUnmountedHandler (_s : LogViewerState) : LogViewerState :=
  { wsOpen := false, termDisposed := true }

/-- The log-dialog part of MiddlewareDetail.vue's state. -/
structure MwDetailState : Type where
  showLogDialog : Bool
  logWsUrl : String
deriving DecidableEq

/-- `handleCloseLog` (MiddlewareDetail.vue, lines 284–292): closes the
dialog and clears the stream URL, unmounting the LogViewer. -/
def handleCloseLog (s : MwDetailState) : MwDetailState :=
  { s with showLogDialog := false, logWsUrl := "" }

/-- One live-log relay session: whether the client socket is still
attached and whether the underlying remote attachment is still held. -/
structure RelaySession : Type where
  clientAttached : Bool
  remoteAttached : Bool
deriving DecidableEq

/-- A client disconnect (socket close, navigation away) as the relay
observes it. -/
def clientDisconnect (s : RelaySession) : RelaySession :=
  { s with clientAttached := false }

/-- Modelled from the spec: one polling interval of the Streaming Relay's
forwarding loop (spec §4.4 teardown) — the relay server is not part of the
repository snapshot, only its frontend clients are. When the client is no
longer attached, the relay closes the underlying remote attachment within
this one interval. -/
def relayPoll (s : RelaySession) : RelaySession :=
  if s.clientAttached then s else { s with remoteAttached := false }

/-! ## Theorems -/

/-- C1: for every verification report produced or consumed by the system,
`success` equals `ssh_ok && port_reachable && auth_valid`, regardless of
`service_active` and `log_path_found`. -/
theorem verify_success_eq_conj (r : MiddlewareVerifyResult) (h : producedReport r) :
    r.success = (r.ssh_ok && r.port_reachable && r.auth_valid) := by
  rcases h with ⟨req, env, hok⟩ | hf
  · unfold verifyMiddleware at hok
    rcases hp : parseMwType req.type_s with _ | ty <;> rw [hp] at hok
    · exact absurd hok (by simp)
    · by_cases hssh : env.sshReachable = false
      · rw [if_pos hssh] at hok
        injection hok with hr
        subst hr
        rfl
      · rw [if_neg hssh] at hok
        injection hok with hr
        subst hr
        rfl
  · subst hf
    rfl

theorem verify_success_eq_conj_witness :
    producedReport fallbackVerifyResult ∧
      fallbackVerifyResult.success =
        (fallbackVerifyResult.ssh_ok && fallbackVerifyResult.port_reachable
          && fallbackVerifyResult.auth_valid) :=
  ⟨Or.inr rfl, verify_success_eq_conj fallbackVerifyResult (Or.inr rfl)⟩

/-- C2: in every report produced or consumed by the system in which
`ssh_ok` is false, every other boolean field is also false. -/
theorem verify_ssh_fail_all_false (r : MiddlewareVerifyResult)
    (h : producedReport r) (hs : r.ssh_ok = false) :
    r.port_reachable = false ∧ r.service_active = false ∧ r.auth_valid = false ∧
      r.log_path_found = false ∧ r.success = false := by
  rcases h with ⟨req, env, hok⟩ | hf
  · unfold verifyMiddleware at hok
    rcases hp : parseMwType req.type_s with _ | ty <;> rw [hp] at hok
    · exact absurd hok (by simp)
    · by_cases hssh : env.sshReachable = false
      · rw [if_pos hssh] at hok
        injection hok with hr
        subst hr
        exact ⟨rfl, rfl, rfl, rfl, rfl⟩
      · rw [if_neg hssh] at hok
        injection hok with hr
        subst hr
        simp at hs
  · subst hf
    exact ⟨rfl, rfl, rfl, rfl, rfl⟩

theorem verify_ssh_fail_all_false_witness :
    producedReport fallbackVerifyResult ∧ fallbackVerifyResult.ssh_ok = false ∧
      fallbackVerifyResult.success = false :=
  ⟨Or.inr rfl, rfl,
    (verify_ssh_fail_all_false fallbackVerifyResult (Or.inr rfl) rfl).2.2.2.2⟩

/-- C8: every verification request with a supported middleware type yields
a best-effort report (never an exception past the engine boundary), and an
unsupported middleware type is the only input surfaced as a validation
error instead of a report. -/
theorem verify_best_effort (req : MiddlewareVerify) (env : ProbeEnv) :
    ((parseMwType req.type_s).isSome = true →
        ∃ r, verifyMiddleware req env = Except.ok r) ∧
      (parseMwType req.type_s = none →
        verifyMiddleware req env =
          Except.error (VerifyError.validationError "unsupported middleware type")) := by
  unfold verifyMiddleware
  rcases hp : parseMwType req.type_s with _ | ty
  · exact ⟨fun h => by simp at h, fun _ => rfl⟩
  · refine ⟨fun _ => ?_, fun h => by simp at h⟩
    by_cases hssh : env.sshReachable = false
    · rw [if_pos hssh]
      exact ⟨_, rfl⟩
    · rw [if_neg hssh]
      exact ⟨_, rfl⟩

theorem verify_best_effort_witness :
    ∃ r, verifyMiddleware
        { resource_id := 7, type_s := "mysql", port := 3306
          username := some "root", password_plain := some "pw"
          service_name := none }
        { sshReachable := true, portReachable := true, serviceActive := true
          credsAccepted := false, credsRejectedMsg := "access denied"
          logPath := some "/var/log/mysqld.log", procServiceName := some "mysqld" }
        = Except.ok r :=
  (verify_best_effort _ _).1 (by decide)

/-- C4: re-rendering the terminal after a filter change is a pure function
of the buffered history — the rendered lines are a sublist of the buffer
(no network fetch can add data), and a line is shown iff the keyword is
empty or the line case-insensitively contains it. -/
theorem refresh_filters_buffer (lower : Char → Char) (filt : Line)
    (logBuffer : List Line) :
    List.Sublist (refreshTerminalLines lower filt logBuffer) logBuffer ∧
      ∀ line : Line, line ∈ refreshTerminalLines lower filt logBuffer ↔
        (line ∈ logBuffer ∧
          (filt = [] ∨ List.map lower filt <:+: List.map lower line)) := by
  cases filt with
  | nil =>
    constructor
    · exact List.Sublist.refl _
    · intro line
      simp [refreshTerminalLines]
  | cons c cs =>
    constructor
    · simp only [refreshTerminalLines, List.isEmpty_cons, if_false, Bool.false_eq_true]
      exact List.filter_sublist (l := logBuffer)
    · intro line
      simp [refreshTerminalLines, lineMatches, List.mem_filter]

/-- C5: on client disconnect (dialog closed via `handleCloseLog`,
component unmounted via the `onUnmounted` hook), the WebSocket attachment
is closed, and the relay releases the underlying remote attachment within
one polling interval, leaving no remote session attributable to the
stream. -/
theorem relay_teardown (c : LogViewerState) (m : MwDetailState) (s : RelaySession) :
    (onUnmountedHandler c).wsOpen = false ∧
      (handleCloseLog m).logWsUrl = "" ∧
      (relayPoll (clientDisconnect s)).remoteAttached = false ∧
      (relayPoll (clientDisconnect s)).clientAttached = false := by
  refine ⟨rfl, rfl, ?_, ?_⟩ <;> simp [relayPoll, clientDisconnect]

/-- C9: a rollback response has exactly the shape of a forward-deployment
response — the declared response type of the rollback endpoint is the
deployment response type, and every rollback result is literally a
response the forward-deployment path could produce. -/
theorem rollback_same_shape :
    deployRollbackEndpoint.Resp = deployExecuteEndpoint.Resp ∧
      ∀ (server : String) (rid : Nat) (o1 o2 o3 o4 : Bool),
        ∃ (plans : List HostPlan) (rk ko : Bool),
          runRollback server rid o1 o2 o3 o4 = runBatch plans rk ko := by
  constructor
  · rfl
  · intro server rid o1 o2 o3 o4
    refine ⟨[rollbackPlan server rid o1 o2 o3 o4], false, false, ?_⟩
    simp [runRollback, runBatch, batchResults]

/-- A chunk consisting of n newline characters splits into n+1 empty
lines, exactly as JavaScript's `split('\n')` does. -/
theorem splitNl_replicate_newline (n : Nat) :
    splitNl (List.replicate n '\x0a') = List.replicate (n + 1) ([] : Line) := by
  induction n with
  | zero => rfl
  | succ n ih =>
    rw [List.replicate_succ]
    show splitNl ('\x0a' :: List.replicate n '\x0a') = _
    rw [List.replicate_succ]
    simp [splitNl, ih]

/-- The buffer-maintenance handler, with its let-bindings expanded. -/
theorem onMessageBuffer_eq (logBuffer : List Line) (chunk : List Char) :
    onMessageBuffer logBuffer chunk =
      (if logBuffer.length + (splitNl chunk).length > 10000 then
        logBuffer.drop (logBuffer.length + (splitNl chunk).length - 10000)
      else logBuffer) ++ splitNl chunk := rfl

set_option maxRecDepth 4000 in
/-- C3 counterexample: the claim that the line buffer never exceeds its
10000-line capacity fails — a single chunk of 10000 newline characters
arriving at an empty buffer splits into 10001 lines and leaves the buffer
holding 10001 lines. -/
theorem buffer_cap_counterexample :
    (onMessageBuffer [] (List.replicate 10000 '\x0a')).length = 10001 ∧
      10001 > 10000 := by
  have hsplit := splitNl_replicate_newline 10000
  constructor
  · rw [onMessageBuffer_eq, hsplit, List.drop_nil, ite_self, List.nil_append,
      List.length_replicate]
  · decide

/-- C3 amended: starting from a buffer within the 10000-line cap, the
buffer after a chunk never exceeds the larger of 10000 and the chunk's own
line count — in particular the cap is maintained for every chunk of at
most 10000 lines — and on overflow exactly the oldest buffered lines are
removed (new data is never rejected). -/
theorem buffer_cap_amended (logBuffer : List Line) (chunk : List Char)
    (h : logBuffer.length ≤ 10000) :
    (onMessageBuffer logBuffer chunk).length ≤
        max 10000 (splitNl chunk).length ∧
      ((splitNl chunk).length ≤ 10000 →
        (onMessageBuffer logBuffer chunk).length ≤ 10000) ∧
      (logBuffer.length + (splitNl chunk).length > 10000 →
        onMessageBuffer logBuffer chunk =
          logBuffer.drop (logBuffer.length + (splitNl chunk).length - 10000)
            ++ splitNl chunk) := by
  rw [onMessageBuffer_eq]
  by_cases hc : logBuffer.length + (splitNl chunk).length > 10000
  · rw [if_pos hc]
    refine ⟨?_, fun hk => ?_, fun _ => rfl⟩
    · simp only [List.length_append, List.length_drop]
      omega
    · simp only [List.length_append, List.length_drop]
      omega
  · rw [if_neg hc]
    refine ⟨?_, fun hk => ?_, fun hcon => absurd hcon hc⟩
    · simp only [List.length_append]
      omega
    · simp only [List.length_append]
      omega

theorem buffer_cap_amended_witness :
    ([] : List Line).length ≤ 10000 ∧
      (splitNl ['a']).length ≤ 10000 ∧
      (onMessageBuffer [] ['a']).length ≤ 10000 :=
  ⟨by decide, by decide, (buffer_cap_amended [] ['a'] (by decide)).2.1 (by decide)⟩

/-- Every step log recorded by the per-target loop carries that target's
server label and the name of one of the target's own planned steps. -/
theorem mem_runSteps {server : String} {steps : List StepPlan} {s : DeployStepLog}
    (h : s ∈ runSteps server steps) :
    s.server = server ∧ ∃ sp ∈ steps, s.step = sp.step := by
  induction steps with
  | nil => simp [runSteps] at h
  | cons sp rest ih =>
    rw [runSteps] at h
    by_cases hok : sp.ok = true
    · rw [if_pos hok] at h
      rcases List.mem_cons.mp h with h1 | h2
      · subst h1
        exact ⟨rfl, sp, List.mem_cons_self _ _, rfl⟩
      · obtain ⟨hs, sp2, hsp2, hstep⟩ := ih h2
        exact ⟨hs, sp2, List.mem_cons_of_mem _ hsp2, hstep⟩
    · rw [if_neg hok] at h
      rw [List.mem_singleton] at h
      subst h
      exact ⟨rfl, sp, List.mem_cons_self _ _, rfl⟩

/-- A target's result succeeds exactly when all its planned steps do. -/
theorem runTarget_success (p : HostPlan) :
    (runTarget p).success = p.steps.all (fun sp => sp.ok) := rfl

/-- Demo host plan: a healthy first host. -/
def demoPlanA : HostPlan :=
  { server := "web1", resource_id := 1
    steps := [{ step := "upload_artifact", ok := true }
              , { step := "restart_nginx", ok := true }] }

/-- Demo host plan: a healthy second host. -/
def demoPlanB : HostPlan :=
  { server := "web2", resource_id := 2
    steps := [{ step := "upload_artifact", ok := true }] }

/-- Demo host plan: a host whose only step fails. -/
def demoPlanFail : HostPlan :=
  { server := "web3", resource_id := 3
    steps := [{ step := "upload_artifact", ok := false }] }

/-- C6: in a two-host batch with the restart-shared-daemon flag set, the
shared-daemon-restart step is present in the result set iff all prior
steps of both hosts succeeded (assuming no primary step reuses the
distinguished restart-step name). -/
theorem keepalived_step_iff (plans : List HostPlan) (ko : Bool)
    (h2 : plans.length = 2)
    (hn : ∀ p ∈ plans, ∀ sp ∈ p.steps, sp.step ≠ "restart_keepalived") :
    hasRestartStep (runBatch plans true ko) ↔
      ∀ p ∈ plans, ∀ sp ∈ p.steps, sp.ok = true := by
  constructor
  · rintro ⟨r, hr, s, hs, hstep⟩
    have hr2 : r ∈ batchResults plans true ko := hr
    unfold batchResults at hr2
    split at hr2
    case isTrue hcond =>
      intro p hp sp hsp
      have hall : (plans.map runTarget).all (fun r => r.success) = true := by
        simp only [Bool.and_eq_true] at hcond
        exact hcond.2
      have hsucc : (runTarget p).success = true :=
        List.all_eq_true.mp hall _ (List.mem_map_of_mem _ hp)
      rw [runTarget_success] at hsucc
      exact List.all_eq_true.mp hsucc sp hsp
    case isFalse hcond =>
      obtain ⟨p, hp, hpr⟩ := List.mem_map.mp hr2
      subst hpr
      obtain ⟨_, sp, hsp, hstep2⟩ := mem_runSteps hs
      exact absurd (hstep2 ▸ hstep) (hn p hp sp hsp)
  · intro hallok
    have hall : (plans.map runTarget).all (fun r => r.success) = true := by
      rw [List.all_eq_true]
      intro r hr
      obtain ⟨p, hp, hpr⟩ := List.mem_map.mp hr
      subst hpr
      rw [runTarget_success, List.all_eq_true]
      exact fun sp hsp => hallok p hp sp hsp
    have hcond : (true && plans.length == 2
        && (plans.map runTarget).all (fun r => r.success)) = true := by
      simp [h2, hall]
    refine ⟨keepalivedResult ko, ?_, ?_⟩
    · show keepalivedResult ko ∈ batchResults plans true ko
      unfold batchResults
      rw [if_pos hcond]
      exact List.mem_append_right _ (List.mem_singleton.mpr rfl)
    · exact ⟨_, List.mem_singleton.mpr rfl, rfl⟩

theorem keepalived_step_iff_witness :
    hasRestartStep (runBatch [demoPlanA, demoPlanB] true true) :=
  (keepalived_step_iff [demoPlanA, demoPlanB] true rfl (by decide)).mpr (by decide)

/-- C7: per-target isolation — the j-th result of any batch is exactly the
run of the j-th target's own plan, independent of every other target's
steps or failures, and every step recorded on it carries that target's own
server label, so a failed step of one target never appears among another
target's steps. -/
theorem target_step_isolation (plans : List HostPlan) (rk ko : Bool) (j : Nat)
    (hj : j < plans.length) :
    (runBatch plans rk ko).results[j]? = some (runTarget plans[j]) ∧
      ∀ s ∈ (runTarget plans[j]).steps, s.server = plans[j].server := by
  have hres : (runBatch plans rk ko).results = batchResults plans rk ko := rfl
  constructor
  · rw [hres]
    have hmapj : (plans.map runTarget)[j]? = some (runTarget plans[j]) := by
      rw [List.getElem?_map, List.getElem?_eq_getElem hj]
      rfl
    unfold batchResults
    split
    · rw [List.getElem?_append, if_pos (by rw [List.length_map]; exact hj)]
      exact hmapj
    · exact hmapj
  · intro s hs
    exact (mem_runSteps hs).1

theorem target_step_isolation_witness :
    (runBatch [demoPlanA, demoPlanFail] false false).results[1]? =
        some (runTarget demoPlanFail) ∧
      ∀ s ∈ (runTarget demoPlanFail).steps, s.server = demoPlanFail.server :=
  target_step_isolation [demoPlanA, demoPlanFail] false false 1 (by decide)

/-- The deploy view's selection invariant: never more than two servers
selected, and the keepalived flag is set only while exactly two are. -/
theorem dashReach_inv (s : DashboardState) (h : DashReach s) :
    s.selectedResourceIds.length ≤ 2 ∧
      (s.restart_keepalived_flag = true → s.selectedResourceIds.length = 2) := by
  induction h with
  | init => exact ⟨by decide, by decide⟩
  | toggle id s hs ih =>
    obtain ⟨hlen, hflag⟩ := ih
    unfold toggleServer
    by_cases hu : (!s.uploadValid) = true
    · rw [if_pos hu]
      exact ⟨hlen, hflag⟩
    · rw [if_neg hu]
      by_cases hc : s.selectedResourceIds.contains id = true
      · rw [if_pos hc]
        have herase : (s.selectedResourceIds.erase id).length ≤
            s.selectedResourceIds.length :=
          (List.erase_sublist _ _).length_le
        refine ⟨?_, fun hb => ?_⟩
        · show (s.selectedResourceIds.erase id).length ≤ 2
          omega
        · have hb2 : ((s.selectedResourceIds.erase id).length == 2) = true := hb
          show (s.selectedResourceIds.erase id).length = 2
          simpa using hb2
      · rw [if_neg hc]
        by_cases h2 : s.selectedResourceIds.length ≥ 2
        · rw [if_pos h2]
          exact ⟨hlen, hflag⟩
        · rw [if_neg h2]
          refine ⟨?_, fun hb => ?_⟩
          · show (s.selectedResourceIds ++ [id]).length ≤ 2
            rw [List.length_append]
            simp only [List.length_singleton]
            omega
          · have hb2 : ((s.selectedResourceIds ++ [id]).length == 2) = true := hb
            show (s.selectedResourceIds ++ [id]).length = 2
            simpa using hb2
  | checkbox b s hs ih =>
    obtain ⟨hlen, hflag⟩ := ih
    unfold setRestartKeepalived
    by_cases h2 : (s.selectedResourceIds.length == 2) = true
    · rw [if_pos h2]
      refine ⟨hlen, fun _ => ?_⟩
      show s.selectedResourceIds.length = 2
      simpa using h2
    · rw [if_neg h2]
      exact ⟨hlen, hflag⟩
  | upload b s hs ih =>
    exact ih

/-- C10: in every reachable state of the deploy view, at most two servers
are selected; every deployment request submitted with the keepalived flag
set carries exactly two resource ids; and a server toggle that leaves the
selection at any size other than two forces the flag to false. -/
theorem selection_bounded (s : DashboardState) (h : DashReach s) :
    s.selectedResourceIds.length ≤ 2 ∧
      (∀ fid : String, (submittedDeploy fid s).restart_keepalived = true →
        (submittedDeploy fid s).resource_ids.length = 2) ∧
      (∀ id : Nat, (toggleServer id s).selectedResourceIds.length ≠ 2 →
        (toggleServer id s).restart_keepalived_flag = false) := by
  obtain ⟨hlen, hflag⟩ := dashReach_inv s h
  refine ⟨hlen, fun fid hb => hflag hb, fun id hne => ?_⟩
  have hinv := dashReach_inv (toggleServer id s) (DashReach.toggle id s h)
  rcases hb : (toggleServer id s).restart_keepalived_flag with _ | _
  · rfl
  · exact absurd (hinv.2 hb) hne

theorem selection_bounded_witness :
    DashReach (toggleServer 1 (setUploadValid true dashboardInit)) ∧
      (toggleServer 1 (setUploadValid true dashboardInit)).selectedResourceIds.length ≤ 2 := by
  have hr : DashReach (toggleServer 1 (setUploadValid true dashboardInit)) :=
    DashReach.toggle 1 _ (DashReach.upload true _ DashReach.init)
  exact ⟨hr, (selection_bounded _ hr).1⟩

end Ops
